import Mathlib

/-!
Shallow embedding of the tokenLab SEP-41 token contract
(src/contracts/sep41_token). The full-featured variant lives in
contract.rs / admin.rs / metadata.rs / storage_types.rs; a second
simplified variant lives in lib.rs and is embedded separately in the
`Simple` namespace. The crate's `balance` and `allowance` modules are
imported by contract.rs but their source files are not present; those
two modules are modelled from the spec (sections 4.4 and 4.5) and are
marked as such on each definition.

Host semantics: the soroban host executes one contract invocation at a
time and discards every pending storage write when the invocation
panics, so a panic is modelled as `Except.error` and the `exec1`
wrapper keeps the pre-call state on error. `require_auth` is an
external identity service that either aborts the call or succeeds; the
state-transition semantics below models the authorized path, since the
aborting path leaves storage untouched like any other error. Rust
`i128` arithmetic out of range is a fatal error (spec section 3),
modelled by `chkI128`.
-/

namespace TokenLab

set_option maxRecDepth 100000

/-- Decidable equality on `Except`, so that concrete invocation
results can be checked by `decide`. -/
instance exceptDecEq {ε α : Type} [DecidableEq ε] [DecidableEq α] :
    DecidableEq (Except ε α) := fun a b =>
  match a, b with
  | .ok x, .ok y =>
    if h : x = y then .isTrue (by rw [h]) else .isFalse (fun hh => h (Except.ok.inj hh))
  | .error x, .error y =>
    if h : x = y then .isTrue (by rw [h]) else .isFalse (fun hh => h (Except.error.inj hh))
  | .ok _, .error _ => .isFalse (fun hh => Except.noConfusion hh)
  | .error _, .ok _ => .isFalse (fun hh => Except.noConfusion hh)

/-- Association-list lookup with a default, reading the first entry
whose key matches. Absent key reads as the default (lazy default,
spec section 3). -/
def lookupD {α β : Type} [DecidableEq α] : List (α × β) → α → β → β
  | [], _, d => d
  | p :: t, k, d => if k = p.1 then p.2 else lookupD t k d

/-- Association-list store: overwrites the first entry whose key
matches, or appends a fresh entry. -/
def updateD {α β : Type} [DecidableEq α] : List (α × β) → α → β → List (α × β)
  | [], k, v => [(k, v)]
  | p :: t, k, v => if k = p.1 then (k, v) :: t else p :: updateD t k v

/-- Sum of all stored values of an integer-valued association list. -/
def sumVals {α : Type} : List (α × Int) → Int
  | [] => 0
  | p :: t => p.2 + sumVals t

/-- Typed failure reasons; in the source every failure is a panic that
aborts the invocation (spec section 7). -/
inductive Err where
  | alreadyInitialized
  | uninitialized
  | conversionFailed
  | notMintable
  | notBurnable
  | notFreezable
  | globallyFrozen
  | accountFrozen
  | maxSupplyExceeded
  | insufficientBalance
  | insufficientAllowance
  | allowanceExpired
  | invalidAmount
  | negativeAmount
  | overflow
deriving DecidableEq

/-- TokenMetadata from storage_types.rs. -/
structure TokenMetadata where
  decimal : Nat
  name : String
  symbol : String
deriving DecidableEq

/-- TokenState from storage_types.rs. Principals are abstract
unforgeable identifiers, embedded as `Nat`. -/
structure TokenState where
  admin : Nat
  total_supply : Int
  max_supply : Option Int
  is_mintable : Bool
  is_burnable : Bool
  is_freezable : Bool
  is_frozen : Bool
deriving DecidableEq

/-- AllowanceValue from storage_types.rs. -/
structure AllowanceValue where
  amount : Int
  expiration_ledger : Nat
deriving DecidableEq

/-- A value held in the instance-storage slot keyed `DataKey::State`.
Both `write_metadata` (metadata.rs) and `write_state` (admin.rs) use
the key `DataKey::State`, so the slot holds whichever record was
written last; a read at the wrong record type is a fatal conversion
failure in the soroban sdk. -/
inductive InstVal where
  | md (m : TokenMetadata)
  | st (t : TokenState)
deriving DecidableEq

/-- Events published by contract.rs. -/
inductive Event where
  | mint (dst : Nat) (amount : Int)
  | burn (src : Nat) (amount : Int)
  | freezeEv (addr : Nat)
  | unfreezeEv (addr : Nat)
  | setFrozenEv (flag : Bool)
  | setAdminEv (newAdmin : Nat)
  | approveEv (owner spender : Nat) (amount : Int) (expiration : Nat)
  | transfer (src dst : Nat) (amount : Int)
deriving DecidableEq

set_option synthInstance.maxHeartbeats 1000000 in
/-- The durable store visible to the full-featured contract:
`DataKey::Admin` and `DataKey::State` instance slots, persistent
balance records, allowance records, per-account freeze records (keyed
by the raw address, contract.rs line 116), and the append-only event
log. -/
structure Storage where
  adminSlot : Option Nat
  stateSlot : Option InstVal
  balances : List (Nat × Int)
  allowances : List ((Nat × Nat) × AllowanceValue)
  frozen : List Nat
  events : List Event
deriving DecidableEq

/-- Fresh storage before any call. -/
def emptyStorage : Storage :=
  { adminSlot := none, stateSlot := none, balances := [], allowances := [],
    frozen := [], events := [] }

/-- Smallest i128 value. -/
def intMin : Int := -(2 ^ 127)

/-- Largest i128 value. -/
def intMax : Int := 2 ^ 127 - 1

/-- Rust i128 arithmetic: a result out of the 128-bit range is a
fatal error, not wraparound (spec section 3). -/
def chkI128 (x : Int) : Except Err Int :=
  if x < intMin ∨ intMax < x then .error .overflow else .ok x

/-- has_administrator from admin.rs. -/
def has_administrator (s : Storage) : Bool :=
  s.adminSlot.isSome

/-- read_administrator from admin.rs; `.unwrap()` on a missing slot
panics. -/
def read_administrator (s : Storage) : Except Err Nat :=
  match s.adminSlot with
  | none => .error .uninitialized
  | some a => .ok a

/-- write_administrator from admin.rs. -/
def write_administrator (s : Storage) (id : Nat) : Storage :=
  { s with adminSlot := some id }

/-- read_state from admin.rs; the slot may hold a TokenMetadata
record instead (see `InstVal`), which is a fatal conversion failure. -/
def read_state (s : Storage) : Except Err TokenState :=
  match s.stateSlot with
  | none => .error .uninitialized
  | some (InstVal.md _) => .error .conversionFailed
  | some (InstVal.st t) => .ok t

/-- write_state from admin.rs (key `DataKey::State`). -/
def write_state (s : Storage) (t : TokenState) : Storage :=
  { s with stateSlot := some (InstVal.st t) }

/-- check_admin from admin.rs: reads the administrator and requires
its authorization (authorization is the external identity service). -/
def check_admin (s : Storage) : Except Err Unit :=
  match read_administrator s with
  | .error e => .error e
  | .ok _ => .ok ()

/-- write_metadata from metadata.rs: stores the metadata at key
`DataKey::State` — the same key `write_state` uses. -/
def write_metadata (s : Storage) (m : TokenMetadata) : Storage :=
  { s with stateSlot := some (InstVal.md m) }

/-- read_decimal from metadata.rs: reads key `DataKey::State` as a
TokenMetadata; absent key yields 0, a slot holding a TokenState is a
fatal sdk conversion failure. -/
def read_decimal (s : Storage) : Except Err Nat :=
  match s.stateSlot with
  | none => .ok 0
  | some (InstVal.md m) => .ok m.decimal
  | some (InstVal.st _) => .error .conversionFailed

/-- read_name from metadata.rs (same key collision as read_decimal). -/
def read_name (s : Storage) : Except Err String :=
  match s.stateSlot with
  | none => .ok ("")
  | some (InstVal.md m) => .ok m.name
  | some (InstVal.st _) => .error .conversionFailed

/-- read_symbol from metadata.rs (same key collision as read_decimal). -/
def read_symbol (s : Storage) : Except Err String :=
  match s.stateSlot with
  | none => .ok ("")
  | some (InstVal.md m) => .ok m.symbol
  | some (InstVal.st _) => .error .conversionFailed

/-- Modelled from the spec: balance.rs is imported by contract.rs but
absent from src. Spec section 4.4, `read(account)`: returns 0 if
absent. -/
def read_balance (s : Storage) (a : Nat) : Int :=
  lookupD s.balances a 0

/-- Modelled from the spec: balance.rs is absent from src. Spec
section 4.4, `receive(account, amount)`: `balance += amount`; amount
must be non-negative; overflow is fatal. -/
def receive_balance (s : Storage) (a : Nat) (x : Int) : Except Err Storage :=
  if x < 0 then .error .negativeAmount
  else
    match chkI128 (read_balance s a + x) with
    | .error e => .error e
    | .ok nb => .ok { s with balances := updateD s.balances a nb }

/-- Modelled from the spec: balance.rs is absent from src. Spec
section 4.4, `spend(account, amount)`: fails with InsufficientBalance
if `balance < amount`, else `balance -= amount`. -/
def spend_balance (s : Storage) (a : Nat) (x : Int) : Except Err Storage :=
  if read_balance s a < x then .error .insufficientBalance
  else
    match chkI128 (read_balance s a - x) with
    | .error e => .error e
    | .ok nb => .ok { s with balances := updateD s.balances a nb }

/-- The raw stored allowance entry, `{0, 0}` if absent (spec section
4.5). -/
def stored_allowance (s : Storage) (o sp : Nat) : AllowanceValue :=
  lookupD s.allowances (o, sp) ({ amount := 0, expiration_ledger := 0 })

/-- Modelled from the spec: allowance.rs is imported by contract.rs
but absent from src. Spec sections 3 and 4.6: an entry whose
expiration is before the current ledger sequence reads as amount 0
(lazy expiry); `seq` is the current ledger sequence number. -/
def read_allowance (s : Storage) (o sp : Nat) (seq : Nat) : AllowanceValue :=
  if (stored_allowance s o sp).expiration_ledger < seq then
    { amount := 0, expiration_ledger := (stored_allowance s o sp).expiration_ledger }
  else stored_allowance s o sp

/-- Modelled from the spec: allowance.rs is absent from src. Spec
section 4.5, `write`: overwrites the entry unconditionally; an
expiration in the past is accepted. -/
def write_allowance (s : Storage) (o sp : Nat) (x : Int) (exp : Nat) : Storage :=
  { s with allowances := updateD s.allowances (o, sp) ({ amount := x, expiration_ledger := exp }) }

/-- Modelled from the spec: allowance.rs is absent from src. Spec
section 4.5, `spend`: reads the current entry; fails AllowanceExpired
if the current ledger sequence exceeds the stored expiration; fails
InsufficientAllowance if the stored amount is below the requested
amount; else writes back the difference with the same expiration. -/
def spend_allowance (s : Storage) (o sp : Nat) (x : Int) (seq : Nat) :
    Except Err Storage :=
  if (stored_allowance s o sp).expiration_ledger < seq then .error .allowanceExpired
  else if (stored_allowance s o sp).amount < x then .error .insufficientAllowance
  else
    match chkI128 ((stored_allowance s o sp).amount - x) with
    | .error e => .error e
    | .ok na => .ok (write_allowance s o sp na (stored_allowance s o sp).expiration_ledger)

/-- Appends one published event (`env.events().publish`). -/
def pushEvent (s : Storage) (e : Event) : Storage :=
  { s with events := s.events ++ [e] }

/-- TokenContract::initialize (contract.rs lines 15-49): rejects a
second call once an administrator exists, then writes the
administrator, the metadata and the token state.  `write_metadata` and
`write_state` share the key `DataKey::State`, so the state record
overwrites the metadata record. -/
def initializeOp (s : Storage) (adm dec : Nat) (nm sym : String)
    (ms : Option Int) (mi bu fz : Bool) : Except Err Storage :=
  if has_administrator s then .error .alreadyInitialized
  else .ok (write_state (write_metadata (write_administrator s adm) ({ decimal := dec, name := nm, symbol := sym })) ({ admin := adm, total_supply := 0, max_supply := ms, is_mintable := mi, is_burnable := bu, is_freezable := fz, is_frozen := false }))

/-- The max-supply guard inside mint (contract.rs lines 64-69): when a
cap is configured, the Rust sum `total_supply + amount` is computed
(fatal on i128 overflow) and compared against the cap. -/
def mintMaxCheck (st : TokenState) (x : Int) : Except Err Unit :=
  match st.max_supply with
  | none => .ok ()
  | some m =>
    match chkI128 (st.total_supply + x) with
    | .error e => .error e
    | .ok t => if m < t then .error .maxSupplyExceeded else .ok ()

/-- TokenContract::mint (contract.rs lines 52-80). -/
def mintOp (s : Storage) (dst : Nat) (x : Int) : Except Err Storage :=
  match check_admin s with
  | .error e => .error e
  | .ok _ =>
    match read_state s with
    | .error e => .error e
    | .ok st =>
      if st.is_mintable then
        if st.is_frozen then .error .globallyFrozen
        else
          match mintMaxCheck st x with
          | .error e => .error e
          | .ok _ =>
            match chkI128 (st.total_supply + x) with
            | .error e => .error e
            | .ok ns =>
              match receive_balance (write_state s ({ st with total_supply := ns })) dst x with
              | .error e => .error e
              | .ok s2 => .ok (pushEvent s2 (Event.mint dst x))
      else .error .notMintable

/-- TokenContract::burn (contract.rs lines 83-103). -/
def burnOp (s : Storage) (src : Nat) (x : Int) : Except Err Storage :=
  match check_admin s with
  | .error e => .error e
  | .ok _ =>
    match read_state s with
    | .error e => .error e
    | .ok st =>
      if st.is_burnable then
        if st.is_frozen then .error .globallyFrozen
        else
          match spend_balance s src x with
          | .error e => .error e
          | .ok s1 =>
            match chkI128 (st.total_supply - x) with
            | .error e => .error e
            | .ok ns => .ok (pushEvent (write_state s1 ({ st with total_supply := ns })) (Event.burn src x))
      else .error .notBurnable

/-- TokenContract::freeze (contract.rs lines 106-122): stores a
persistent record keyed by the raw address; set semantics. -/
def freezeOp (s : Storage) (addr : Nat) : Except Err Storage :=
  match check_admin s with
  | .error e => .error e
  | .ok _ =>
    match read_state s with
    | .error e => .error e
    | .ok st =>
      if st.is_freezable then
        .ok (pushEvent ({ s with frozen := if s.frozen.contains addr then s.frozen else addr :: s.frozen }) (Event.freezeEv addr))
      else .error .notFreezable

/-- TokenContract::unfreeze (contract.rs lines 125-139): removes the
persistent freeze record. -/
def unfreezeOp (s : Storage) (addr : Nat) : Except Err Storage :=
  match check_admin s with
  | .error e => .error e
  | .ok _ =>
    match read_state s with
    | .error e => .error e
    | .ok st =>
      if st.is_freezable then
        .ok (pushEvent ({ s with frozen := s.frozen.filter (fun z => z != addr) }) (Event.unfreezeEv addr))
      else .error .notFreezable

/-- TokenContract::set_frozen (contract.rs lines 142-157). -/
def setFrozenOp (s : Storage) (flag : Bool) : Except Err Storage :=
  match check_admin s with
  | .error e => .error e
  | .ok _ =>
    match read_state s with
    | .error e => .error e
    | .ok st =>
      if st.is_freezable then
        .ok (pushEvent (write_state s ({ st with is_frozen := flag })) (Event.setFrozenEv flag))
      else .error .notFreezable

/-- TokenContract::set_admin (contract.rs lines 160-172): writes the
administrator slot first, then mirrors the new admin into the state
record. -/
def setAdminOp (s : Storage) (newAdmin : Nat) : Except Err Storage :=
  match check_admin s with
  | .error e => .error e
  | .ok _ =>
    match read_state (write_administrator s newAdmin) with
    | .error e => .error e
    | .ok st => .ok (pushEvent (write_state (write_administrator s newAdmin) ({ st with admin := newAdmin })) (Event.setAdminEv newAdmin))

/-- TokenContract::is_frozen (contract.rs lines 180-188): true when
the global flag is set or the account has a persistent freeze record. -/
def is_frozen (s : Storage) (addr : Nat) : Except Err Bool :=
  match read_state s with
  | .error e => .error e
  | .ok st => .ok (st.is_frozen || s.frozen.contains addr)

/-- TokenContract::allowance (contract.rs lines 193-198); `seq` is
the current ledger sequence number supplied by the host. -/
def allowance (s : Storage) (o sp : Nat) (seq : Nat) : Int :=
  (read_allowance s o sp seq).amount

/-- TokenContract::approve (contract.rs lines 201-213): `from`
authorization, then an unconditional allowance overwrite. -/
def approveOp (s : Storage) (o sp : Nat) (x : Int) (exp : Nat) : Except Err Storage :=
  .ok (pushEvent (write_allowance s o sp x exp) (Event.approveEv o sp x exp))

/-- TokenContract::transfer (contract.rs lines 224-250): global
freeze check, per-account freeze checks on both endpoints, then
spend/receive. -/
def transferOp (s : Storage) (src dst : Nat) (x : Int) : Except Err Storage :=
  match read_state s with
  | .error e => .error e
  | .ok st =>
    if st.is_frozen then .error .globallyFrozen
    else
      match is_frozen s src with
      | .error e => .error e
      | .ok bs =>
        if bs then .error .accountFrozen
        else
          match is_frozen s dst with
          | .error e => .error e
          | .ok bd =>
            if bd then .error .accountFrozen
            else
              match spend_balance s src x with
              | .error e => .error e
              | .ok s1 =>
                match receive_balance s1 dst x with
                | .error e => .error e
                | .ok s2 => .ok (pushEvent s2 (Event.transfer src dst x))

/-- TokenContract::transfer_from (contract.rs lines 253-280): same
freeze checks as transfer, then spends the (from, spender) allowance
before moving balances. `seq` is the current ledger sequence. -/
def transferFromOp (s : Storage) (sp src dst : Nat) (x : Int) (seq : Nat) :
    Except Err Storage :=
  match read_state s with
  | .error e => .error e
  | .ok st =>
    if st.is_frozen then .error .globallyFrozen
    else
      match is_frozen s src with
      | .error e => .error e
      | .ok bs =>
        if bs then .error .accountFrozen
        else
          match is_frozen s dst with
          | .error e => .error e
          | .ok bd =>
            if bd then .error .accountFrozen
            else
              match spend_allowance s src sp x seq with
              | .error e => .error e
              | .ok s1 =>
                match spend_balance s1 src x with
                | .error e => .error e
                | .ok s2 =>
                  match receive_balance s2 dst x with
                  | .error e => .error e
                  | .ok s3 => .ok (pushEvent s3 (Event.transfer src dst x))

/-- The public mutating operation set of the full-featured contract.
Operations that consult the ledger sequence carry the sequence number
the host would supply at call time. -/
inductive Op where
  | init (adm dec : Nat) (nm sym : String) (ms : Option Int) (mi bu fz : Bool)
  | mint (dst : Nat) (x : Int)
  | burn (src : Nat) (x : Int)
  | freeze (addr : Nat)
  | unfreeze (addr : Nat)
  | setFrozen (flag : Bool)
  | setAdmin (newAdmin : Nat)
  | approve (o sp : Nat) (x : Int) (exp : Nat)
  | transfer (src dst : Nat) (x : Int)
  | transferFrom (sp src dst : Nat) (x : Int) (seq : Nat)
deriving DecidableEq

/-- One invocation of a public operation against the durable store. -/
def step (op : Op) (s : Storage) : Except Err Storage :=
  match op with
  | .init adm dec nm sym ms mi bu fz => initializeOp s adm dec nm sym ms mi bu fz
  | .mint dst x => mintOp s dst x
  | .burn src x => burnOp s src x
  | .freeze addr => freezeOp s addr
  | .unfreeze addr => unfreezeOp s addr
  | .setFrozen flag => setFrozenOp s flag
  | .setAdmin a => setAdminOp s a
  | .approve o sp x exp => approveOp s o sp x exp
  | .transfer src dst x => transferOp s src dst x
  | .transferFrom sp src dst x seq => transferFromOp s sp src dst x seq

/-- Whether an invocation succeeded. -/
def okB (r : Except Err Storage) : Bool :=
  match r with
  | .ok _ => true
  | .error _ => false

/-- Observable effect of one invocation: the host commits the new
state on success and discards every pending write when the call
panics (spec section 5: all-or-nothing cancellation). -/
def exec1 (s : Storage) (op : Op) : Storage :=
  match step op s with
  | .ok t => t
  | .error _ => s

/-- Observable effect of a call sequence. -/
def execList (s : Storage) (ops : List Op) : Storage :=
  ops.foldl exec1 s

/-- States reachable from a successful `initialize` on fresh storage
by any sequence of public operations. -/
inductive Reach : Storage → Prop where
  | base (adm dec : Nat) (nm sym : String) (ms : Option Int) (mi bu fz : Bool)
      (s : Storage) :
      step (Op.init adm dec nm sym ms mi bu fz) emptyStorage = .ok s → Reach s
  | next (s : Storage) (op : Op) : Reach s → Reach (exec1 s op)

/-- True when the operation is neither an approve for the pair
`(o, sp)` nor a transfer_from spending the pair `(o, sp)`. -/
def UntouchB (o sp : Nat) (op : Op) : Bool :=
  match op with
  | .approve f p _ _ => !(f == o && p == sp)
  | .transferFrom p f _ _ _ => !(f == o && p == sp)
  | _ => true

/-- Whether the configured max-supply cap is exceeded by a value. -/
def exceedsMax (ms : Option Int) (y : Int) : Bool :=
  match ms with
  | none => false
  | some m => decide (m < y)

/-- Whether a value lies in the i128 range. -/
def inRangeB (y : Int) : Bool :=
  decide (intMin ≤ y) && decide (y ≤ intMax)

/-- The token-state record of a storage, defaulting when the
`DataKey::State` slot does not hold one. -/
def stateD (s : Storage) : TokenState :=
  match s.stateSlot with
  | some (InstVal.st t) => t
  | _ => { admin := 0, total_supply := 0, max_supply := none, is_mintable := false, is_burnable := false, is_freezable := false, is_frozen := false }

/-- The accounting invariant of spec section 8, without the
max-supply clause: the state slot holds a token state whose
total_supply equals the sum of all balance records, the supply is
non-negative, and every balance record is non-negative. -/
def invariantB (s : Storage) : Bool :=
  (match s.stateSlot with
   | some (InstVal.st t) => decide (t.total_supply = sumVals s.balances) && decide (0 ≤ t.total_supply)
   | _ => false)
  && s.balances.all (fun p => decide (0 ≤ p.2))

namespace Simple

/-- Storage of the simplified lib.rs variant: instance entries keyed
ADMIN / NAME / SYMBOL / DECIMAL / SUPPLY, plus persistent balance
records keyed by the raw address. -/
structure SStorage where
  adminS : Option Nat
  nameS : Option String
  symbolS : Option String
  decimalS : Option Nat
  supplyS : Option Int
  balancesS : List (Nat × Int)
deriving DecidableEq

/-- lib.rs TokenContract::initialize (lines 13-25): unconditional
writes; no already-initialized guard. -/
def initializeS (s : SStorage) (adm dec : Nat) (nm sym : String) : SStorage :=
  { s with adminS := some adm, nameS := some nm, symbolS := some sym,
           decimalS := some dec, supplyS := some 0 }

/-- lib.rs TokenContract::balance (lines 48-50). -/
def balanceS (s : SStorage) (id : Nat) : Int :=
  lookupD s.balancesS id 0

/-- lib.rs TokenContract::total_supply (lines 43-45). -/
def total_supplyS (s : SStorage) : Int :=
  s.supplyS.getD 0

/-- lib.rs TokenContract::mint (lines 53-62): unwraps the admin
(panic when uninitialized), then adds to the balance and the supply. -/
def mintS (s : SStorage) (dst : Nat) (x : Int) : Except Err SStorage :=
  match s.adminS with
  | none => .error .uninitialized
  | some _ =>
    match chkI128 (balanceS s dst + x) with
    | .error e => .error e
    | .ok nb =>
      match chkI128 ((({ s with balancesS := updateD s.balancesS dst nb } : SStorage).supplyS.getD 0) + x) with
      | .error e => .error e
      | .ok ns => .ok { s with balancesS := updateD s.balancesS dst nb, supplyS := some ns }

/-- lib.rs TokenContract::transfer (lines 65-77): reads both balances
first, checks the sender balance, then writes the sender debit and
the recipient credit computed from the balances read before either
write. -/
def transferS (s : SStorage) (src dst : Nat) (x : Int) : Except Err SStorage :=
  if lookupD s.balancesS src 0 < x then .error .insufficientBalance
  else
    match chkI128 (lookupD s.balancesS src 0 - x) with
    | .error e => .error e
    | .ok nf =>
      match chkI128 (lookupD s.balancesS dst 0 + x) with
      | .error e => .error e
      | .ok nt => .ok { s with balancesS := updateD (updateD s.balancesS src nf) dst nt }

end Simple

/-- State after `initialize(admin 0, decimal 7, name Test Token,
symbol TEST, no cap, mintable, burnable, freezable)` on fresh
storage: the metadata written at `DataKey::State` has been overwritten
by the TokenState record. -/
def s7 : Storage :=
  { adminSlot := some 0,
    stateSlot := some (InstVal.st ({ admin := 0, total_supply := 0, max_supply := none, is_mintable := true, is_burnable := true, is_freezable := true, is_frozen := false })),
    balances := [], allowances := [], frozen := [], events := [] }

/-- State after `initialize` with `max_supply = some 0`, burnable
only. -/
def sCap : Storage :=
  { adminSlot := some 0,
    stateSlot := some (InstVal.st ({ admin := 0, total_supply := 0, max_supply := some 0, is_mintable := false, is_burnable := true, is_freezable := false, is_frozen := false })),
    balances := [], allowances := [], frozen := [], events := [] }

/-- State after `burn(1, -1)` on `sCap`: total_supply 1 exceeds the
configured cap 0. -/
def sCapBurn : Storage :=
  { adminSlot := some 0,
    stateSlot := some (InstVal.st ({ admin := 0, total_supply := 1, max_supply := some 0, is_mintable := false, is_burnable := true, is_freezable := false, is_frozen := false })),
    balances := [(1, 1)], allowances := [], frozen := [], events := [Event.burn 1 (-1)] }

/-- State after `mint(1, 5)` on `s7`. -/
def sMint : Storage :=
  { adminSlot := some 0,
    stateSlot := some (InstVal.st ({ admin := 0, total_supply := 5, max_supply := none, is_mintable := true, is_burnable := true, is_freezable := true, is_frozen := false })),
    balances := [(1, 5)], allowances := [], frozen := [], events := [Event.mint 1 5] }

/-- State after `transfer(1, 1, 3)` on `sMint`: the self-transfer
leaves the balance at 5. -/
def sMintSelf : Storage :=
  { adminSlot := some 0,
    stateSlot := some (InstVal.st ({ admin := 0, total_supply := 5, max_supply := none, is_mintable := true, is_burnable := true, is_freezable := true, is_frozen := false })),
    balances := [(1, 5)], allowances := [], frozen := [], events := [Event.mint 1 5, Event.transfer 1 1 3] }

/-- State after `transfer(1, 2, 3)` on `sMint`. -/
def sPair : Storage :=
  { adminSlot := some 0,
    stateSlot := some (InstVal.st ({ admin := 0, total_supply := 5, max_supply := none, is_mintable := true, is_burnable := true, is_freezable := true, is_frozen := false })),
    balances := [(1, 2), (2, 3)], allowances := [], frozen := [], events := [Event.mint 1 5, Event.transfer 1 2 3] }

/-- State like `s7` but with account 3 carrying a freeze record. -/
def sFroze : Storage :=
  { adminSlot := some 0,
    stateSlot := some (InstVal.st ({ admin := 0, total_supply := 0, max_supply := none, is_mintable := true, is_burnable := true, is_freezable := true, is_frozen := false })),
    balances := [], allowances := [], frozen := [3], events := [] }

/-- State after `mint(5, 0)` on `s7`: the zero-amount mint succeeds
and records a zero balance entry. -/
def sZeroMint : Storage :=
  { adminSlot := some 0,
    stateSlot := some (InstVal.st ({ admin := 0, total_supply := 0, max_supply := none, is_mintable := true, is_burnable := true, is_freezable := true, is_frozen := false })),
    balances := [(5, 0)], allowances := [], frozen := [], events := [Event.mint 5 0] }

/-- State after `approve(1, 2, 50, 10)` on fresh storage. -/
def sApprove : Storage :=
  { adminSlot := none, stateSlot := none, balances := [],
    allowances := [((1, 2), ({ amount := 50, expiration_ledger := 10 }))],
    frozen := [], events := [Event.approveEv 1 2 50 10] }

/-- A simplified-variant state with account 1 holding 5 tokens. -/
def sSimple : Simple.SStorage :=
  { adminS := some 0, nameS := none, symbolS := none, decimalS := none,
    supplyS := some 5, balancesS := [(1, 5)] }

/-- The simplified-variant state after `transfer(1, 1, 3)` on
`sSimple`: the balance grew from 5 to 8. -/
def sSimpleSelf : Simple.SStorage :=
  { adminS := some 0, nameS := none, symbolS := none, decimalS := none,
    supplyS := some 5, balancesS := [(1, 8)] }

/-- Looking up the key just stored yields the stored value. -/
theorem lookupD_updateD_self {α β : Type} [DecidableEq α]
    (l : List (α × β)) (k : α) (v : β) (d : β) :
    lookupD (updateD l k v) k d = v := by
  induction l with
  | nil => simp [updateD, lookupD]
  | cons p t ih =>
    by_cases h : k = p.1
    · simp [updateD, lookupD, h]
    · simp [updateD, lookupD, h, ih]

/-- Storing at one key leaves lookups at other keys unchanged. -/
theorem lookupD_updateD_ne {α β : Type} [DecidableEq α]
    (l : List (α × β)) (k k' : α) (v : β) (d : β) (h : k' ≠ k) :
    lookupD (updateD l k v) k' d = lookupD l k' d := by
  induction l with
  | nil => simp [updateD, lookupD, h]
  | cons p t ih =>
    by_cases hk : k = p.1
    · subst hk
      simp [updateD, lookupD, h]
    · by_cases hk' : k' = p.1
      · simp [updateD, lookupD, hk, hk']
      · simp [updateD, lookupD, hk, hk', ih]

/-- Storing a value changes the sum of stored values by the new value
minus the value previously read at that key. -/
theorem sumVals_updateD {α : Type} [DecidableEq α]
    (l : List (α × Int)) (k : α) (v : Int) :
    sumVals (updateD l k v) = sumVals l + v - lookupD l k 0 := by
  induction l with
  | nil => simp [updateD, sumVals, lookupD]
  | cons p t ih =>
    by_cases h : k = p.1
    · simp [updateD, sumVals, lookupD, h]
      ring
    · simp [updateD, sumVals, lookupD, h, ih]
      ring

/-- Every entry after a store is the stored pair or an old entry. -/
theorem mem_updateD {α β : Type} [DecidableEq α]
    {l : List (α × β)} {k : α} {v : β} {p : α × β}
    (h : p ∈ updateD l k v) : p = (k, v) ∨ p ∈ l := by
  induction l with
  | nil =>
    simp [updateD] at h
    exact Or.inl h
  | cons q t ih =>
    by_cases hk : k = q.1
    · simp [updateD, hk] at h
      rcases h with h | h
      · exact Or.inl (by rw [h, ← hk])
      · exact Or.inr (List.mem_cons_of_mem _ h)
    · simp [updateD, hk] at h
      rcases h with h | h
      · exact Or.inr (by simp [h])
      · rcases ih h with h' | h'
        · exact Or.inl h'
        · exact Or.inr (List.mem_cons_of_mem _ h')

/-- A lookup in a list of non-negative entries is non-negative. -/
theorem lookupD_nonneg {α : Type} [DecidableEq α]
    {l : List (α × Int)} (h : ∀ p ∈ l, 0 ≤ p.2) (k : α) :
    0 ≤ lookupD l k 0 := by
  induction l with
  | nil => simp [lookupD]
  | cons p t ih =>
    by_cases hk : k = p.1
    · simpa [lookupD, hk] using h p (List.mem_cons_self p t)
    · exact (by simpa [lookupD, hk] using ih (fun q hq => h q (List.mem_cons_of_mem _ hq)))

/-- The sum of non-negative entries is non-negative. -/
theorem sumVals_nonneg {α : Type}
    {l : List (α × Int)} (h : ∀ p ∈ l, 0 ≤ p.2) :
    0 ≤ sumVals l := by
  induction l with
  | nil => simp [sumVals]
  | cons p t ih =>
    have h1 := h p (List.mem_cons_self p t)
    have h2 := ih (fun q hq => h q (List.mem_cons_of_mem _ hq))
    simp [sumVals]
    omega

/-- A successful range check returns its input unchanged. -/
theorem chk_ok {y z : Int} (h : chkI128 y = Except.ok z) : z = y := by
  unfold chkI128 at h
  split at h
  · exact Except.noConfusion h
  · exact (Except.ok.inj h).symm

/-- A successful range check certifies the i128 bounds. -/
theorem chk_ok_range {y z : Int} (h : chkI128 y = Except.ok z) :
    inRangeB y = true := by
  unfold chkI128 at h
  split at h
  · exact Except.noConfusion h
  · next hc =>
    simp [inRangeB]
    constructor <;> omega

/-- A failed range check reports overflow. -/
theorem chk_error {y : Int} {e : Err} (h : chkI128 y = Except.error e) :
    e = Err.overflow := by
  unfold chkI128 at h
  split at h
  · exact (Except.error.inj h).symm
  · exact Except.noConfusion h

/-- In-range values pass the range check. -/
theorem chk_of_inRange {y : Int} (h : inRangeB y = true) :
    chkI128 y = Except.ok y := by
  simp [inRangeB] at h
  unfold chkI128
  rw [if_neg]
  omega

/-- Characterization of a successful `receive_balance`: the amount is
non-negative and exactly the target balance record is raised by it. -/
theorem receive_ok {s s' : Storage} {a : Nat} {x : Int}
    (h : receive_balance s a x = Except.ok s') :
    0 ≤ x ∧ s' = { s with balances := updateD s.balances a (read_balance s a + x) } := by
  unfold receive_balance at h
  split at h
  · exact Except.noConfusion h
  · next hx =>
    split at h
    · exact Except.noConfusion h
    · next nb hnb =>
      refine ⟨by omega, ?_⟩
      rw [← Except.ok.inj h, chk_ok hnb]

/-- Characterization of a successful `spend_balance`: the balance
covers the amount and exactly the target record is lowered by it. -/
theorem spend_ok {s s' : Storage} {a : Nat} {x : Int}
    (h : spend_balance s a x = Except.ok s') :
    x ≤ read_balance s a ∧ s' = { s with balances := updateD s.balances a (read_balance s a - x) } := by
  unfold spend_balance at h
  split at h
  · exact Except.noConfusion h
  · next hx =>
    split at h
    · exact Except.noConfusion h
    · next nb hnb =>
      refine ⟨by omega, ?_⟩
      rw [← Except.ok.inj h, chk_ok hnb]

/-- Characterization of a successful `spend_allowance`: exactly the
target allowance record is lowered, keeping its expiration. -/
theorem spendAllow_ok {s s' : Storage} {o sp : Nat} {x : Int} {seq : Nat}
    (h : spend_allowance s o sp x seq = Except.ok s') :
    x ≤ (stored_allowance s o sp).amount ∧
      s' = write_allowance s o sp ((stored_allowance s o sp).amount - x)
            (stored_allowance s o sp).expiration_ledger := by
  unfold spend_allowance at h
  split at h
  · exact Except.noConfusion h
  · split at h
    · exact Except.noConfusion h
    · next hx =>
      split at h
      · exact Except.noConfusion h
      · next na hna =>
        refine ⟨by omega, ?_⟩
        rw [← Except.ok.inj h, chk_ok hna]

/-- A successful `read_state` means the shared slot holds a token
state. -/
theorem read_state_ok {s : Storage} {st : TokenState}
    (h : read_state s = Except.ok st) :
    s.stateSlot = some (InstVal.st st) := by
  unfold read_state at h
  split at h
  · exact Except.noConfusion h
  · exact Except.noConfusion h
  · next t heq => rw [heq, Except.ok.inj h]

/-- A successful `check_admin` means an administrator is recorded. -/
theorem check_admin_ok {s : Storage} {u : Unit}
    (h : check_admin s = Except.ok u) :
    ∃ a, s.adminSlot = some a := by
  unfold check_admin read_administrator at h
  cases ha : s.adminSlot with
  | none => rw [ha] at h; simp at h
  | some a => exact ⟨a, rfl⟩

/-- Inversion of a successful `initialize`: no administrator existed,
and the result carries the admin and the fresh token state, with the
metadata record overwritten in the shared slot. -/
theorem init_ok_inv {s s' : Storage} {adm dec : Nat} {nm sym : String}
    {ms : Option Int} {mi bu fz : Bool}
    (h : initializeOp s adm dec nm sym ms mi bu fz = Except.ok s') :
    s.adminSlot = none ∧
      s' = { s with
               adminSlot := some adm,
               stateSlot := some (InstVal.st ({ admin := adm, total_supply := 0, max_supply := ms, is_mintable := mi, is_burnable := bu, is_freezable := fz, is_frozen := false })) } := by
  unfold initializeOp at h
  split at h
  · exact Except.noConfusion h
  · next hadm =>
    have hnone : s.adminSlot = none := by
      unfold has_administrator at hadm
      cases hs : s.adminSlot
      · rfl
      · rw [hs] at hadm; simp at hadm
    exact ⟨hnone, (Except.ok.inj h).symm⟩

/-- Inversion of a successful `mint`: the amount is non-negative, the
state slot held a token state, and the result raises the supply and
the target balance and publishes the mint event. -/
theorem mint_ok_inv {s s' : Storage} {dst : Nat} {x : Int}
    (h : mintOp s dst x = Except.ok s') :
    0 ≤ x ∧ ∃ st, s.stateSlot = some (InstVal.st st) ∧
      s' = { s with
               stateSlot := some (InstVal.st ({ st with total_supply := st.total_supply + x })),
               balances := updateD s.balances dst (read_balance s dst + x),
               events := s.events ++ [Event.mint dst x] } := by
  unfold mintOp at h
  split at h
  · exact Except.noConfusion h
  · split at h
    · exact Except.noConfusion h
    · next st hst =>
      split at h
      · split at h
        · exact Except.noConfusion h
        · split at h
          · exact Except.noConfusion h
          · split at h
            · exact Except.noConfusion h
            · next ns hns =>
              split at h
              · exact Except.noConfusion h
              · next s2 hrec =>
                obtain ⟨hx, hs2⟩ := receive_ok hrec
                refine ⟨hx, st, read_state_ok hst, ?_⟩
                rw [← Except.ok.inj h, hs2, chk_ok hns]
                rfl
      · exact Except.noConfusion h

/-- Inversion of a successful `burn`: the balance covers the amount,
and the result lowers the balance and the supply and publishes the
burn event. -/
theorem burn_ok_inv {s s' : Storage} {src : Nat} {x : Int}
    (h : burnOp s src x = Except.ok s') :
    x ≤ read_balance s src ∧ ∃ st, s.stateSlot = some (InstVal.st st) ∧
      s' = { s with
               stateSlot := some (InstVal.st ({ st with total_supply := st.total_supply - x })),
               balances := updateD s.balances src (read_balance s src - x),
               events := s.events ++ [Event.burn src x] } := by
  unfold burnOp at h
  split at h
  · exact Except.noConfusion h
  · split at h
    · exact Except.noConfusion h
    · next st hst =>
      split at h
      · split at h
        · exact Except.noConfusion h
        · split at h
          · exact Except.noConfusion h
          · next s1 hsp =>
            split at h
            · exact Except.noConfusion h
            · next ns hns =>
              obtain ⟨hx, hs1⟩ := spend_ok hsp
              refine ⟨hx, st, read_state_ok hst, ?_⟩
              rw [← Except.ok.inj h, hs1, chk_ok hns]
              rfl
      · exact Except.noConfusion h

/-- Inversion of a successful `freeze`. -/
theorem freeze_ok_inv {s s' : Storage} {addr : Nat}
    (h : freezeOp s addr = Except.ok s') :
    s' = { s with
             frozen := if s.frozen.contains addr then s.frozen else addr :: s.frozen,
             events := s.events ++ [Event.freezeEv addr] } := by
  unfold freezeOp at h
  split at h
  · exact Except.noConfusion h
  · split at h
    · exact Except.noConfusion h
    · split at h
      · exact (Except.ok.inj h).symm
      · exact Except.noConfusion h

/-- Inversion of a successful `unfreeze`. -/
theorem unfreeze_ok_inv {s s' : Storage} {addr : Nat}
    (h : unfreezeOp s addr = Except.ok s') :
    s' = { s with
             frozen := s.frozen.filter (fun z => z != addr),
             events := s.events ++ [Event.unfreezeEv addr] } := by
  unfold unfreezeOp at h
  split at h
  · exact Except.noConfusion h
  · split at h
    · exact Except.noConfusion h
    · split at h
      · exact (Except.ok.inj h).symm
      · exact Except.noConfusion h

/-- Inversion of a successful `set_frozen`. -/
theorem setFrozen_ok_inv {s s' : Storage} {flag : Bool}
    (h : setFrozenOp s flag = Except.ok s') :
    ∃ st, s.stateSlot = some (InstVal.st st) ∧
      s' = { s with
               stateSlot := some (InstVal.st ({ st with is_frozen := flag })),
               events := s.events ++ [Event.setFrozenEv flag] } := by
  unfold setFrozenOp at h
  split at h
  · exact Except.noConfusion h
  · split at h
    · exact Except.noConfusion h
    · next st hst =>
      split at h
      · exact ⟨st, read_state_ok hst, (Except.ok.inj h).symm⟩
      · exact Except.noConfusion h

/-- Inversion of a successful `set_admin`. -/
theorem setAdmin_ok_inv {s s' : Storage} {na : Nat}
    (h : setAdminOp s na = Except.ok s') :
    ∃ st, s.stateSlot = some (InstVal.st st) ∧
      s' = { s with
               adminSlot := some na,
               stateSlot := some (InstVal.st ({ st with admin := na })),
               events := s.events ++ [Event.setAdminEv na] } := by
  unfold setAdminOp at h
  split at h
  · exact Except.noConfusion h
  · split at h
    · exact Except.noConfusion h
    · next st hst =>
      have hslot : (write_administrator s na).stateSlot = some (InstVal.st st) := read_state_ok hst
      exact ⟨st, hslot, (Except.ok.inj h).symm⟩

/-- Inversion of `approve` (it always succeeds). -/
theorem approve_ok_inv {s s' : Storage} {o sp : Nat} {x : Int} {exp : Nat}
    (h : approveOp s o sp x exp = Except.ok s') :
    s' = { s with
             allowances := updateD s.allowances (o, sp) ({ amount := x, expiration_ledger := exp }),
             events := s.events ++ [Event.approveEv o sp x exp] } :=
  (Except.ok.inj h).symm

/-- Inversion of a successful `transfer`: the amount is non-negative,
the sender balance covers it, and exactly the two endpoint records
move, the recipient credit being computed after the sender debit. -/
theorem transfer_ok_inv {s s' : Storage} {src dst : Nat} {x : Int}
    (h : transferOp s src dst x = Except.ok s') :
    0 ≤ x ∧ x ≤ read_balance s src ∧
      s' = { s with
               balances := updateD (updateD s.balances src (read_balance s src - x)) dst (lookupD (updateD s.balances src (read_balance s src - x)) dst 0 + x),
               events := s.events ++ [Event.transfer src dst x] } := by
  unfold transferOp at h
  split at h
  · exact Except.noConfusion h
  · split at h
    · exact Except.noConfusion h
    · split at h
      · exact Except.noConfusion h
      · split at h
        · exact Except.noConfusion h
        · split at h
          · exact Except.noConfusion h
          · split at h
            · exact Except.noConfusion h
            · split at h
              · exact Except.noConfusion h
              · next s1 hsp =>
                split at h
                · exact Except.noConfusion h
                · next s2 hrc =>
                  obtain ⟨hx1, hs1⟩ := spend_ok hsp
                  obtain ⟨hx0, hs2⟩ := receive_ok hrc
                  subst hs1
                  refine ⟨hx0, hx1, ?_⟩
                  rw [← Except.ok.inj h, hs2]
                  rfl

/-- Inversion of a successful `transfer_from`: like `transfer`, plus
the allowance record of the pair (src, sp) is lowered. -/
theorem transferFrom_ok_inv {s s' : Storage} {sp src dst : Nat} {x : Int} {seq : Nat}
    (h : transferFromOp s sp src dst x seq = Except.ok s') :
    0 ≤ x ∧ x ≤ read_balance s src ∧
      s' = { s with
               allowances := updateD s.allowances (src, sp) ({ amount := (stored_allowance s src sp).amount - x, expiration_ledger := (stored_allowance s src sp).expiration_ledger }),
               balances := updateD (updateD s.balances src (read_balance s src - x)) dst (lookupD (updateD s.balances src (read_balance s src - x)) dst 0 + x),
               events := s.events ++ [Event.transfer src dst x] } := by
  unfold transferFromOp at h
  split at h
  · exact Except.noConfusion h
  · split at h
    · exact Except.noConfusion h
    · split at h
      · exact Except.noConfusion h
      · split at h
        · exact Except.noConfusion h
        · split at h
          · exact Except.noConfusion h
          · split at h
            · exact Except.noConfusion h
            · split at h
              · exact Except.noConfusion h
              · next s1 hal =>
                split at h
                · exact Except.noConfusion h
                · next s2 hsp =>
                  split at h
                  · exact Except.noConfusion h
                  · next s3 hrc =>
                    obtain ⟨hxa, hs1⟩ := spendAllow_ok hal
                    obtain ⟨hx1, hs2⟩ := spend_ok hsp
                    obtain ⟨hx0, hs3⟩ := receive_ok hrc
                    subst hs1
                    subst hs2
                    refine ⟨hx0, hx1, ?_⟩
                    rw [← Except.ok.inj h, hs3]
                    rfl

/-- C5: the claim says decimals/name/symbol return the initialize
arguments forever after. In the code, `write_metadata` stores the
metadata at `DataKey::State` and `write_state` immediately overwrites
that same key with the TokenState record (the metadata.rs comment
says a separate key was intended), so after a successful initialize
the metadata is gone and every metadata read is a fatal sdk
conversion failure instead of returning 7 / Test Token / TEST. -/
theorem C5_metadata_clobbered :
    step (Op.init 0 7 ("Test Token") ("TEST") none true true true) emptyStorage = Except.ok s7
    ∧ read_decimal s7 = Except.error Err.conversionFailed
    ∧ read_name s7 = Except.error Err.conversionFailed
    ∧ read_symbol s7 = Except.error Err.conversionFailed := by
  refine ⟨by decide, by decide, by decide, by decide⟩

/-- C7: initialize on fresh storage succeeds and yields total_supply
0, is_frozen false, the given admin, max_supply and capability flags,
and a second initialize fails with AlreadyInitialized; but the
`DataKey::State` slot holds only the TokenState record — the metadata
record written moments earlier was overwritten (code bug, see C5), so
the "persists metadata" part of the claim fails. -/
theorem C7_initialize_lifecycle :
    step (Op.init 0 7 ("Test Token") ("TEST") none true true true) emptyStorage = Except.ok s7
    ∧ s7.adminSlot = some 0
    ∧ s7.stateSlot = some (InstVal.st ({ admin := 0, total_supply := 0, max_supply := none, is_mintable := true, is_burnable := true, is_freezable := true, is_frozen := false }))
    ∧ read_decimal s7 = Except.error Err.conversionFailed
    ∧ step (Op.init 1 9 ("Other") ("OTH") (some 5) false false false) s7 = Except.error Err.alreadyInitialized := by
  refine ⟨by decide, by decide, by decide, by decide, by decide⟩

/-- C9: all-or-nothing failure. Every failing invocation is a panic;
the host discards all pending writes of a panicked invocation (spec
section 5), modelled by `exec1` keeping the pre-call state whenever
`step` returns an error, for every operation and every state. -/
theorem C9_all_or_nothing (op : Op) (s : Storage) (e : Err)
    (h : step op s = Except.error e) : exec1 s op = s := by
  unfold exec1
  rw [h]

/-- Witness for C9 at a concrete failing input: a transfer exceeding
the sender balance fails with InsufficientBalance and leaves the
state exactly as it was. -/
theorem C9_all_or_nothing_witness :
    step (Op.transfer 1 2 99) sMint = Except.error Err.insufficientBalance
    ∧ exec1 sMint (Op.transfer 1 2 99) = sMint :=
  ⟨by decide, C9_all_or_nothing (Op.transfer 1 2 99) sMint Err.insufficientBalance (by decide)⟩

/-- Counterexample to C1 as stated: from a token initialized with
max_supply 0 and burnable, the reachable state after `burn(1, -1)`
has total_supply 1, above the configured cap — the max-supply clause
of the invariant fails on reachable states. -/
theorem C1_max_supply_counterexample :
    step (Op.init 0 0 ("") ("") (some 0) false true false) emptyStorage = Except.ok sCap
    ∧ step (Op.burn 1 (-1)) sCap = Except.ok sCapBurn
    ∧ Reach sCapBurn
    ∧ (stateD sCapBurn).max_supply = some 0
    ∧ (stateD sCapBurn).total_supply = 1 := by
  have h1 : step (Op.init 0 0 ("") ("") (some 0) false true false) emptyStorage = Except.ok sCap := by decide
  have h2 : exec1 sCap (Op.burn 1 (-1)) = sCapBurn := by decide
  refine ⟨h1, by decide, ?_, by decide, by decide⟩
  have hr : Reach sCap := Reach.base 0 0 ("") ("") (some 0) false true false sCap h1
  have hr2 := Reach.next sCap (Op.burn 1 (-1)) hr
  rw [h2] at hr2
  exact hr2

/-- Counterexample to C2 as stated: a successful self-transfer
`transfer(1, 1, 3)` leaves the balance of account 1 at 5 — it does
not decrease by the transferred amount. -/
theorem C2_self_transfer_counterexample :
    step (Op.mint 1 5) s7 = Except.ok sMint
    ∧ step (Op.transfer 1 1 3) sMint = Except.ok sMintSelf
    ∧ read_balance sMintSelf 1 = 5
    ∧ ¬ read_balance sMintSelf 1 = read_balance sMint 1 - 3 := by
  refine ⟨by decide, by decide, by decide, by decide⟩

/-- Counterexample to C3 as stated: on an initialized, mintable,
non-frozen token with no cap configured, `mint(5, -1)` does not
succeed (the otherwise branch of the claim); it aborts at
receive_balance's non-negativity requirement, crediting nothing. -/
theorem C3_negative_mint_counterexample :
    step (Op.mint 5 (-1)) s7 = Except.error Err.negativeAmount
    ∧ exec1 s7 (Op.mint 5 (-1)) = s7 := by
  refine ⟨by decide, by decide⟩

/-- Counterexample to C4 as stated: mint, burn and transfer with
amount 0 all succeed on an initialized token — no operation fails
with InvalidAmount on a non-positive amount. -/
theorem C4_zero_amount_counterexample :
    step (Op.mint 5 0) s7 = Except.ok sZeroMint
    ∧ okB (step (Op.burn 5 0) s7) = true
    ∧ okB (step (Op.transfer 5 6 0) s7) = true := by
  refine ⟨by decide, by decide, by decide⟩

/-- Every successful public operation preserves the accounting
invariant: an administrator stays recorded, the state slot keeps
holding a token state whose total_supply equals the sum of all
balance records, and every balance record stays non-negative. -/
theorem step_preserves_inv {s s' : Storage} (op : Op)
    (h : step op s = Except.ok s')
    (ha : ∃ a, s.adminSlot = some a)
    (hs : ∃ st, s.stateSlot = some (InstVal.st st) ∧ st.total_supply = sumVals s.balances)
    (hb : ∀ p ∈ s.balances, 0 ≤ p.2) :
    (∃ a, s'.adminSlot = some a)
    ∧ (∃ st, s'.stateSlot = some (InstVal.st st) ∧ st.total_supply = sumVals s'.balances)
    ∧ (∀ p ∈ s'.balances, 0 ≤ p.2) := by
  obtain ⟨a0, ha0⟩ := ha
  obtain ⟨st0, hst0, hsum0⟩ := hs
  cases op with
  | init adm dec nm sym ms mi bu fz =>
    obtain ⟨hnone, _⟩ := init_ok_inv h
    rw [ha0] at hnone
    exact Option.noConfusion hnone
  | mint dst x =>
    obtain ⟨hx, st, hst, hs'⟩ := mint_ok_inv h
    have hst' : st0 = st := by
      have hh := hst0.symm.trans hst
      injection hh with h1
      injection h1 with h2
    subst hst'
    subst hs'
    refine ⟨⟨a0, ha0⟩, ⟨_, rfl, ?_⟩, ?_⟩
    · show st0.total_supply + x = sumVals (updateD s.balances dst (read_balance s dst + x))
      rw [sumVals_updateD]
      unfold read_balance
      omega
    · intro p hp
      rcases mem_updateD hp with hp' | hp'
      · have := lookupD_nonneg hb dst
        rw [hp']
        unfold read_balance
        simp
        omega
      · exact hb p hp'
  | burn src x =>
    obtain ⟨hx, st, hst, hs'⟩ := burn_ok_inv h
    have hst' : st0 = st := by
      have hh := hst0.symm.trans hst
      injection hh with h1
      injection h1 with h2
    subst hst'
    subst hs'
    refine ⟨⟨a0, ha0⟩, ⟨_, rfl, ?_⟩, ?_⟩
    · show st0.total_supply - x = sumVals (updateD s.balances src (read_balance s src - x))
      rw [sumVals_updateD]
      unfold read_balance
      omega
    · intro p hp
      rcases mem_updateD hp with hp' | hp'
      · rw [hp']
        unfold read_balance at hx
        show 0 ≤ read_balance s src - x
        unfold read_balance
        omega
      · exact hb p hp'
  | freeze addr =>
    have hs' := freeze_ok_inv h
    subst hs'
    exact ⟨⟨a0, ha0⟩, ⟨st0, hst0, hsum0⟩, hb⟩
  | unfreeze addr =>
    have hs' := unfreeze_ok_inv h
    subst hs'
    exact ⟨⟨a0, ha0⟩, ⟨st0, hst0, hsum0⟩, hb⟩
  | setFrozen flag =>
    obtain ⟨st, hst, hs'⟩ := setFrozen_ok_inv h
    have hst' : st0 = st := by
      have hh := hst0.symm.trans hst
      injection hh with h1
      injection h1 with h2
    subst hst'
    subst hs'
    exact ⟨⟨a0, ha0⟩, ⟨_, rfl, hsum0⟩, hb⟩
  | setAdmin na =>
    obtain ⟨st, hst, hs'⟩ := setAdmin_ok_inv h
    have hst' : st0 = st := by
      have hh := hst0.symm.trans hst
      injection hh with h1
      injection h1 with h2
    subst hst'
    subst hs'
    exact ⟨⟨na, rfl⟩, ⟨_, rfl, hsum0⟩, hb⟩
  | approve o sp x exp =>
    have hs' := approve_ok_inv h
    subst hs'
    exact ⟨⟨a0, ha0⟩, ⟨st0, hst0, hsum0⟩, hb⟩
  | transfer src dst x =>
    obtain ⟨hx0, hx1, hs'⟩ := transfer_ok_inv h
    subst hs'
    have hXnn : ∀ p ∈ updateD s.balances src (read_balance s src - x), 0 ≤ p.2 := by
      intro p hp
      rcases mem_updateD hp with hp' | hp'
      · rw [hp']
        unfold read_balance at hx1
        show 0 ≤ read_balance s src - x
        unfold read_balance
        omega
      · exact hb p hp'
    refine ⟨⟨a0, ha0⟩, ⟨st0, hst0, ?_⟩, ?_⟩
    · show st0.total_supply = sumVals (updateD (updateD s.balances src (read_balance s src - x)) dst (lookupD (updateD s.balances src (read_balance s src - x)) dst 0 + x))
      rw [sumVals_updateD, sumVals_updateD]
      unfold read_balance
      omega
    · intro p hp
      rcases mem_updateD hp with hp' | hp'
      · have := lookupD_nonneg hXnn dst
        rw [hp']
        simp
        omega
      · exact hXnn p hp'
  | transferFrom sp src dst x seq =>
    obtain ⟨hx0, hx1, hs'⟩ := transferFrom_ok_inv h
    subst hs'
    have hXnn : ∀ p ∈ updateD s.balances src (read_balance s src - x), 0 ≤ p.2 := by
      intro p hp
      rcases mem_updateD hp with hp' | hp'
      · rw [hp']
        unfold read_balance at hx1
        show 0 ≤ read_balance s src - x
        unfold read_balance
        omega
      · exact hb p hp'
    refine ⟨⟨a0, ha0⟩, ⟨st0, hst0, ?_⟩, ?_⟩
    · show st0.total_supply = sumVals (updateD (updateD s.balances src (read_balance s src - x)) dst (lookupD (updateD s.balances src (read_balance s src - x)) dst 0 + x))
      rw [sumVals_updateD, sumVals_updateD]
      unfold read_balance
      omega
    · intro p hp
      rcases mem_updateD hp with hp' | hp'
      · have := lookupD_nonneg hXnn dst
        rw [hp']
        simp
        omega
      · exact hXnn p hp'

/-- Every state reachable from a successful initialize satisfies the
accounting invariant. -/
theorem reach_inv {s : Storage} (h : Reach s) :
    (∃ a, s.adminSlot = some a)
    ∧ (∃ st, s.stateSlot = some (InstVal.st st) ∧ st.total_supply = sumVals s.balances)
    ∧ (∀ p ∈ s.balances, 0 ≤ p.2) := by
  induction h with
  | base adm dec nm sym ms mi bu fz s h0 =>
    obtain ⟨_, hs0⟩ := init_ok_inv h0
    subst hs0
    refine ⟨⟨adm, rfl⟩, ⟨_, rfl, rfl⟩, ?_⟩
    intro p hp
    simp [emptyStorage] at hp
  | next s op hr ih =>
    obtain ⟨ha, hs, hb⟩ := ih
    cases hstep : step op s with
    | ok t =>
      have he : exec1 s op = t := by unfold exec1; rw [hstep]
      rw [he]
      exact step_preserves_inv op hstep ha hs hb
    | error e =>
      have he : exec1 s op = s := by unfold exec1; rw [hstep]
      rw [he]
      exact ⟨ha, hs, hb⟩

/-- C1 (amended: the max-supply clause fails, see the
counterexample): in every state reachable from initialize by public
operations, the state slot holds a token state, total_supply equals
the sum of all balance records, total_supply is non-negative, and no
balance record is negative. -/
theorem C1_accounting_invariant {s : Storage} (h : Reach s) :
    invariantB s = true := by
  obtain ⟨ha, ⟨st, hslot, hsum⟩, hb⟩ := reach_inv h
  unfold invariantB
  rw [hslot]
  simp only [Bool.and_eq_true, decide_eq_true_eq, List.all_eq_true]
  refine ⟨⟨hsum, ?_⟩, ?_⟩
  · rw [hsum]
    exact sumVals_nonneg hb
  · intro p hp
    exact hb p hp

/-- Witness for C1 at a concrete reachable state. -/
theorem C1_accounting_invariant_witness :
    Reach s7 ∧ invariantB s7 = true := by
  have hr : Reach s7 :=
    Reach.base 0 7 ("Test Token") ("TEST") none true true true s7 (by decide)
  exact ⟨hr, C1_accounting_invariant hr⟩

/-- C2 (amended: restricted to distinct endpoints; a self-transfer
leaves every balance unchanged, see the counterexample): for every
successful transfer(a, b, x) with a different from b, balance(a)
decreases by exactly x, balance(b) increases by exactly x, their sum
is unchanged, and the balance of any third account is unchanged; for
a = b every balance is unchanged. -/
theorem C2_transfer_conservation {s s' : Storage} (a b c : Nat) (x : Int)
    (h : step (Op.transfer a b x) s = Except.ok s') :
    (a ≠ b → read_balance s' a = read_balance s a - x
      ∧ read_balance s' b = read_balance s b + x
      ∧ read_balance s' a + read_balance s' b = read_balance s a + read_balance s b)
    ∧ (a ≠ b → c ≠ a → c ≠ b → read_balance s' c = read_balance s c)
    ∧ (a = b → read_balance s' c = read_balance s c) := by
  obtain ⟨hx0, hx1, hs'⟩ := transfer_ok_inv h
  have hbal : s'.balances = updateD (updateD s.balances a (read_balance s a - x)) b (lookupD (updateD s.balances a (read_balance s a - x)) b 0 + x) := by
    rw [hs']
  unfold read_balance at hx1 hbal ⊢
  refine ⟨?_, ?_, ?_⟩
  · intro hab
    have h1 : lookupD s'.balances a 0 = lookupD s.balances a 0 - x := by
      rw [hbal, lookupD_updateD_ne _ _ _ _ _ hab, lookupD_updateD_self]
    have h2 : lookupD s'.balances b 0 = lookupD s.balances b 0 + x := by
      rw [hbal, lookupD_updateD_self, lookupD_updateD_ne _ _ _ _ _ (Ne.symm hab)]
    exact ⟨h1, h2, by omega⟩
  · intro hab hca hcb
    rw [hbal, lookupD_updateD_ne _ _ _ _ _ hcb, lookupD_updateD_ne _ _ _ _ _ hca]
  · intro hab
    subst hab
    rw [hbal]
    by_cases hc : c = a
    · subst hc
      rw [lookupD_updateD_self, lookupD_updateD_self]
      omega
    · rw [lookupD_updateD_ne _ _ _ _ _ hc, lookupD_updateD_ne _ _ _ _ _ hc]

/-- Witness for C2 at a concrete successful transfer(1, 2, 3). -/
theorem C2_transfer_conservation_witness :
    ((1 : Nat) ≠ 2 → read_balance sPair 1 = read_balance sMint 1 - 3
      ∧ read_balance sPair 2 = read_balance sMint 2 + 3
      ∧ read_balance sPair 1 + read_balance sPair 2 = read_balance sMint 1 + read_balance sMint 2)
    ∧ ((1 : Nat) ≠ 2 → (3 : Nat) ≠ 1 → (3 : Nat) ≠ 2 → read_balance sPair 3 = read_balance sMint 3)
    ∧ ((1 : Nat) = 2 → read_balance sPair 3 = read_balance sMint 3) :=
  C2_transfer_conservation 1 2 3 3 (by decide)

/-- A failing `receive_balance` reports a negative amount or an
overflow, never anything else. -/
theorem receive_error_inv {s : Storage} {a : Nat} {x : Int} {e : Err}
    (h : receive_balance s a x = Except.error e) :
    e = Err.negativeAmount ∨ e = Err.overflow := by
  unfold receive_balance at h
  split at h
  · exact Or.inl (Except.error.inj h).symm
  · split at h
    · next e' he' => exact Or.inr ((Except.error.inj h).symm.trans (chk_error he'))
    · exact Except.noConfusion h

/-- A failed range check certifies the value is out of the i128
range. -/
theorem chk_error_not_inRange {y : Int} {e : Err}
    (h : chkI128 y = Except.error e) : inRangeB y = false := by
  unfold chkI128 at h
  split at h
  · next hc =>
    simp only [inRangeB, Bool.and_eq_false_iff, decide_eq_false_iff_not]
    omega
  · exact Except.noConfusion h

/-- Success characterization of `mint`: under admin and state
hypotheses, a non-negative in-range amount below the cap credits the
destination, raises the supply and publishes the mint event. -/
theorem mint_succeeds {s : Storage} {st : TokenState} (adm dst : Nat) (x : Int)
    (ha : s.adminSlot = some adm) (hs : s.stateSlot = some (InstVal.st st))
    (hm : st.is_mintable = true) (hf : st.is_frozen = false)
    (hmax : exceedsMax st.max_supply (st.total_supply + x) = false)
    (hx : 0 ≤ x)
    (hr1 : inRangeB (st.total_supply + x) = true)
    (hr2 : inRangeB (read_balance s dst + x) = true) :
    mintOp s dst x = Except.ok (pushEvent ({ write_state s ({ st with total_supply := st.total_supply + x }) with balances := updateD s.balances dst (read_balance s dst + x) }) (Event.mint dst x)) := by
  have hca : check_admin s = Except.ok () := by
    unfold check_admin read_administrator
    rw [ha]
  have hrs : read_state s = Except.ok st := by
    unfold read_state
    rw [hs]
  have hmm : mintMaxCheck st x = Except.ok () := by
    unfold mintMaxCheck
    cases hmx : st.max_supply with
    | none => rfl
    | some m =>
      rw [hmx] at hmax
      simp only [exceedsMax, decide_eq_false_iff_not] at hmax
      rw [chk_of_inRange hr1]
      simp [hmax]
  have hrecv : receive_balance (write_state s ({ st with total_supply := st.total_supply + x })) dst x = Except.ok ({ write_state s ({ st with total_supply := st.total_supply + x }) with balances := updateD s.balances dst (read_balance s dst + x) }) := by
    unfold receive_balance
    rw [if_neg (by omega)]
    have hrb : read_balance (write_state s ({ st with total_supply := st.total_supply + x })) dst = read_balance s dst := rfl
    rw [hrb, chk_of_inRange hr2]
    rfl
  rw [hm, hf] at hrecv
  simp [mintOp, hca, hrs, hm, hf, hmm, chk_of_inRange hr1, hrecv]

/-- C3 (amended: the otherwise branch of the claim additionally needs a
non-negative amount and in-range i128 arithmetic; a negative amount
is rejected at receive_balance, see the counterexample): on an
initialized, mintable, non-frozen token, mint fails with
MaxSupplyExceeded exactly when max_supply is set and
total_supply + amount exceeds it with the sum inside the i128 range;
and with amount non-negative, the cap respected and the arithmetic in
range, mint succeeds, raising total_supply and the destination
balance by the amount and publishing mint(to, amount). -/
theorem C3_mint_max_supply {s : Storage} {st : TokenState} (adm dst : Nat) (x : Int)
    (ha : s.adminSlot = some adm) (hs : s.stateSlot = some (InstVal.st st))
    (hm : st.is_mintable = true) (hf : st.is_frozen = false) :
    (mintOp s dst x = Except.error Err.maxSupplyExceeded ↔
      exceedsMax st.max_supply (st.total_supply + x) = true ∧ inRangeB (st.total_supply + x) = true)
    ∧ (0 ≤ x → exceedsMax st.max_supply (st.total_supply + x) = false →
        inRangeB (st.total_supply + x) = true → inRangeB (read_balance s dst + x) = true →
        mintOp s dst x = Except.ok (pushEvent ({ write_state s ({ st with total_supply := st.total_supply + x }) with balances := updateD s.balances dst (read_balance s dst + x) }) (Event.mint dst x))) := by
  have hca : check_admin s = Except.ok () := by
    unfold check_admin read_administrator
    rw [ha]
  have hrs : read_state s = Except.ok st := by
    unfold read_state
    rw [hs]
  constructor
  · constructor
    · intro h
      unfold mintOp at h
      rw [hca, hrs] at h
      simp only [hm, hf, if_true, Bool.false_eq_true, if_false] at h
      split at h
      · next e hmm2 =>
        have he : e = Err.maxSupplyExceeded := Except.error.inj h
        subst he
        unfold mintMaxCheck at hmm2
        split at hmm2
        · exact Except.noConfusion hmm2
        · next m hmx =>
          split at hmm2
          · next e' hchk =>
            exact Err.noConfusion ((Except.error.inj hmm2).symm.trans (chk_error hchk))
          · next t hchk =>
            split at hmm2
            · next hlt =>
              have ht := chk_ok hchk
              subst ht
              refine ⟨?_, chk_ok_range hchk⟩
              rw [hmx]
              simp only [exceedsMax, decide_eq_true_eq]
              exact hlt
            · exact Except.noConfusion hmm2
      · next u hmm2 =>
        split at h
        · next e hchk =>
          exact Err.noConfusion ((Except.error.inj h).symm.trans (chk_error hchk))
        · next ns hchk =>
          split at h
          · next e hrv =>
            have he := Except.error.inj h
            rcases receive_error_inv hrv with h' | h' <;>
              (rw [h'] at he; exact Err.noConfusion he)
          · exact Except.noConfusion h
    · rintro ⟨hex, hir⟩
      cases hmx : st.max_supply with
      | none =>
        rw [hmx] at hex
        simp [exceedsMax] at hex
      | some m =>
        rw [hmx] at hex
        simp only [exceedsMax, decide_eq_true_eq] at hex
        have hmm : mintMaxCheck st x = Except.error Err.maxSupplyExceeded := by
          simp [mintMaxCheck, hmx, chk_of_inRange hir, hex]
        simp [mintOp, hca, hrs, hm, hf, hmm]
  · intro hx hexF hir1 hir2
    exact mint_succeeds adm dst x ha hs hm hf hexF hx hir1 hir2

/-- Witness for C3 at the concrete uncapped token `s7`: the
MaxSupplyExceeded characterization and the success branch at
mint(5, 2). -/
theorem C3_mint_max_supply_witness :
    (mintOp s7 5 2 = Except.error Err.maxSupplyExceeded ↔
      exceedsMax (stateD s7).max_supply ((stateD s7).total_supply + 2) = true ∧ inRangeB ((stateD s7).total_supply + 2) = true)
    ∧ (0 ≤ (2 : Int) → exceedsMax (stateD s7).max_supply ((stateD s7).total_supply + 2) = false →
        inRangeB ((stateD s7).total_supply + 2) = true → inRangeB (read_balance s7 5 + 2) = true →
        mintOp s7 5 2 = Except.ok (pushEvent ({ write_state s7 ({ stateD s7 with total_supply := (stateD s7).total_supply + 2 }) with balances := updateD s7.balances 5 (read_balance s7 5 + 2) }) (Event.mint 5 2))) :=
  C3_mint_max_supply 0 5 2 (by decide) (by decide) (by decide) (by decide)

/-- Success characterization of `burn`: under admin and state
hypotheses, a covered in-range amount debits the source, lowers the
supply and publishes the burn event. -/
theorem burn_succeeds {s : Storage} {st : TokenState} (adm src : Nat) (x : Int)
    (ha : s.adminSlot = some adm) (hs : s.stateSlot = some (InstVal.st st))
    (hbn : st.is_burnable = true) (hf : st.is_frozen = false)
    (hx : x ≤ read_balance s src)
    (hr1 : inRangeB (read_balance s src - x) = true)
    (hr2 : inRangeB (st.total_supply - x) = true) :
    burnOp s src x = Except.ok (pushEvent (write_state ({ s with balances := updateD s.balances src (read_balance s src - x) }) ({ st with total_supply := st.total_supply - x })) (Event.burn src x)) := by
  have hca : check_admin s = Except.ok () := by
    unfold check_admin read_administrator
    rw [ha]
  have hrs : read_state s = Except.ok st := by
    unfold read_state
    rw [hs]
  have hsp : spend_balance s src x = Except.ok ({ s with balances := updateD s.balances src (read_balance s src - x) }) := by
    unfold spend_balance
    rw [if_neg (by omega), chk_of_inRange hr1]
  simp [burnOp, hca, hrs, hbn, hf, hsp, chk_of_inRange hr2]

/-- Success characterization of `transfer`: with no freeze in the
way, a non-negative covered in-range amount moves from src to dst and
publishes the transfer event. -/
theorem transfer_succeeds {s : Storage} {st : TokenState} (a b : Nat) (x : Int)
    (hs : s.stateSlot = some (InstVal.st st)) (hf : st.is_frozen = false)
    (hfa : s.frozen.contains a = false) (hfb : s.frozen.contains b = false)
    (hx : x ≤ read_balance s a) (hx0 : 0 ≤ x)
    (hr1 : inRangeB (read_balance s a - x) = true)
    (hr2 : inRangeB (lookupD (updateD s.balances a (read_balance s a - x)) b 0 + x) = true) :
    transferOp s a b x = Except.ok (pushEvent ({ s with balances := updateD (updateD s.balances a (read_balance s a - x)) b (lookupD (updateD s.balances a (read_balance s a - x)) b 0 + x) }) (Event.transfer a b x)) := by
  have hrs : read_state s = Except.ok st := by
    unfold read_state
    rw [hs]
  have hifa : is_frozen s a = Except.ok false := by
    unfold is_frozen
    rw [hrs]
    simp only [hf, Bool.false_or, hfa]
  have hifb : is_frozen s b = Except.ok false := by
    unfold is_frozen
    rw [hrs]
    simp only [hf, Bool.false_or, hfb]
  have hsp : spend_balance s a x = Except.ok ({ s with balances := updateD s.balances a (read_balance s a - x) }) := by
    unfold spend_balance
    rw [if_neg (by omega), chk_of_inRange hr1]
  have hrc : receive_balance ({ s with balances := updateD s.balances a (read_balance s a - x) }) b x = Except.ok ({ s with balances := updateD (updateD s.balances a (read_balance s a - x)) b (lookupD (updateD s.balances a (read_balance s a - x)) b 0 + x) }) := by
    unfold receive_balance
    rw [if_neg (by omega)]
    have hrb : read_balance ({ s with balances := updateD s.balances a (read_balance s a - x) }) b = lookupD (updateD s.balances a (read_balance s a - x)) b 0 := rfl
    rw [hrb, chk_of_inRange hr2]
  simp [transferOp, hrs, hf, hifa, hifb, hsp, hrc]

/-- C4 (amended: the code has no InvalidAmount policy at all — the
claimed rejection does not exist): on an initialized, mintable,
burnable, unfrozen, uncapped token with in-range supply and
balances, mint, burn and transfer of amount 0 all succeed; negative
amounts are caught only where the spec-modelled receive_balance
requires non-negativity (mint and transfer fail with its
negativeAmount panic, burn accepts the negative amount). -/
theorem C4_no_invalid_amount {s : Storage} {st : TokenState} (adm a b : Nat)
    (ha : s.adminSlot = some adm) (hs : s.stateSlot = some (InstVal.st st))
    (hm : st.is_mintable = true) (hbn : st.is_burnable = true) (hf : st.is_frozen = false)
    (hmx : st.max_supply = none)
    (hfa : s.frozen.contains a = false) (hfb : s.frozen.contains b = false)
    (hsl : 0 ≤ st.total_supply) (hsu : st.total_supply < intMax)
    (hal : 0 ≤ read_balance s a) (hau : read_balance s a < intMax)
    (hbl : 0 ≤ read_balance s b) (hbu : read_balance s b < intMax) :
    okB (step (Op.mint a 0) s) = true
    ∧ okB (step (Op.burn a 0) s) = true
    ∧ okB (step (Op.transfer a b 0) s) = true
    ∧ step (Op.mint a (-1)) s = Except.error Err.negativeAmount
    ∧ step (Op.transfer a b (-1)) s = Except.error Err.negativeAmount
    ∧ okB (step (Op.burn a (-1)) s) = true := by
  have hminlt : intMin < 0 := by decide
  have hmaxgt : 0 < intMax := by decide
  have hca : check_admin s = Except.ok () := by
    unfold check_admin read_administrator
    rw [ha]
  have hrs : read_state s = Except.ok st := by
    unfold read_state
    rw [hs]
  have hifa : is_frozen s a = Except.ok false := by
    unfold is_frozen
    rw [hrs]
    simp only [hf, Bool.false_or, hfa]
  have hifb : is_frozen s b = Except.ok false := by
    unfold is_frozen
    rw [hrs]
    simp only [hf, Bool.false_or, hfb]
  have hirB : ∀ y : Int, intMin ≤ y → y ≤ intMax → inRangeB y = true := by
    intro y h1 h2
    simp only [inRangeB, Bool.and_eq_true, decide_eq_true_eq]
    omega
  refine ⟨?_, ?_, ?_, ?_, ?_, ?_⟩
  · rw [show step (Op.mint a 0) s = mintOp s a 0 from rfl,
        mint_succeeds adm a 0 ha hs hm hf (by rw [hmx]; rfl) le_rfl
          (hirB _ (by omega) (by omega)) (hirB _ (by omega) (by omega))]
    rfl
  · rw [show step (Op.burn a 0) s = burnOp s a 0 from rfl,
        burn_succeeds adm a 0 ha hs hbn hf (by omega)
          (hirB _ (by omega) (by omega)) (hirB _ (by omega) (by omega))]
    rfl
  · have hlb : 0 ≤ lookupD (updateD s.balances a (read_balance s a - 0)) b 0 ∧
        lookupD (updateD s.balances a (read_balance s a - 0)) b 0 < intMax := by
      by_cases hba : b = a
      · subst hba
        rw [lookupD_updateD_self]
        unfold read_balance at hal hau
        constructor <;> omega
      · rw [lookupD_updateD_ne _ _ _ _ _ hba]
        unfold read_balance at hbl hbu
        exact ⟨hbl, hbu⟩
    rw [show step (Op.transfer a b 0) s = transferOp s a b 0 from rfl,
        transfer_succeeds a b 0 hs hf hfa hfb (by omega) le_rfl
          (hirB _ (by omega) (by omega)) (hirB _ (by omega) (by omega))]
    rfl
  · have hneg : ∀ t : Storage, receive_balance t a (-1) = Except.error Err.negativeAmount := by
      intro t
      unfold receive_balance
      rw [if_pos (by norm_num)]
    have hir : inRangeB (st.total_supply + (-1)) = true := hirB _ (by omega) (by omega)
    simp [step, mintOp, hca, hrs, hm, hf, mintMaxCheck, hmx, chk_of_inRange hir, hneg]
  · have hneg : ∀ t : Storage, receive_balance t b (-1) = Except.error Err.negativeAmount := by
      intro t
      unfold receive_balance
      rw [if_pos (by norm_num)]
    have hsp : spend_balance s a (-1) = Except.ok ({ s with balances := updateD s.balances a (read_balance s a - (-1)) }) := by
      unfold spend_balance
      rw [if_neg (by omega), chk_of_inRange (hirB _ (by omega) (by omega))]
    simp [step, transferOp, hrs, hf, hifa, hifb, hsp, hneg]
  · rw [show step (Op.burn a (-1)) s = burnOp s a (-1) from rfl,
        burn_succeeds adm a (-1) ha hs hbn hf (by omega)
          (hirB _ (by omega) (by omega)) (hirB _ (by omega) (by omega))]
    rfl

/-- Witness for C4 at the concrete state `s7`. -/
theorem C4_no_invalid_amount_witness :
    okB (step (Op.mint 1 0) s7) = true
    ∧ okB (step (Op.burn 1 0) s7) = true
    ∧ okB (step (Op.transfer 1 2 0) s7) = true
    ∧ step (Op.mint 1 (-1)) s7 = Except.error Err.negativeAmount
    ∧ step (Op.transfer 1 2 (-1)) s7 = Except.error Err.negativeAmount
    ∧ okB (step (Op.burn 1 (-1)) s7) = true :=
  @C4_no_invalid_amount s7 ({ admin := 0, total_supply := 0, max_supply := none, is_mintable := true, is_burnable := true, is_freezable := true, is_frozen := false }) 0 1 2
    (by decide) (by decide) (by decide) (by decide) (by decide) (by decide)
    (by decide) (by decide) (by decide) (by decide) (by decide) (by decide)
    (by decide) (by decide)

/-- C10: in the simplified lib.rs variant, a successful self-transfer
transfer(a, a, x) with 0 <= x <= balance(a) leaves balance(a) at its
old value plus x (the recipient balance is read before the sender
debit is written), so the sum of all balances grows by x while
total_supply is unchanged. -/
theorem C10_simple_self_transfer {s s' : Simple.SStorage} (a : Nat) (x : Int)
    (h0 : 0 ≤ x) (hle : x ≤ Simple.balanceS s a)
    (h : Simple.transferS s a a x = Except.ok s') :
    Simple.balanceS s' a = Simple.balanceS s a + x
    ∧ sumVals s'.balancesS = sumVals s.balancesS + x
    ∧ s'.supplyS = s.supplyS := by
  unfold Simple.transferS at h
  split at h
  · exact Except.noConfusion h
  · next hlt =>
    split at h
    · exact Except.noConfusion h
    · next nf hnf =>
      split at h
      · exact Except.noConfusion h
      · next nt hnt =>
        have hnf' := chk_ok hnf
        have hnt' := chk_ok hnt
        subst hnf'
        subst hnt'
        have hs' := (Except.ok.inj h).symm
        subst hs'
        refine ⟨?_, ?_, rfl⟩
        · unfold Simple.balanceS
          show lookupD (updateD (updateD s.balancesS a (lookupD s.balancesS a 0 - x)) a (lookupD s.balancesS a 0 + x)) a 0 = lookupD s.balancesS a 0 + x
          rw [lookupD_updateD_self]
        · show sumVals (updateD (updateD s.balancesS a (lookupD s.balancesS a 0 - x)) a (lookupD s.balancesS a 0 + x)) = sumVals s.balancesS + x
          rw [sumVals_updateD, sumVals_updateD, lookupD_updateD_self]
          omega

/-- Witness for C10 at the concrete simplified state with
balance(1) = 5 and x = 3: the balance becomes 8. -/
theorem C10_simple_self_transfer_witness :
    Simple.balanceS sSimpleSelf 1 = Simple.balanceS sSimple 1 + 3
    ∧ sumVals sSimpleSelf.balancesS = sumVals sSimple.balancesS + 3
    ∧ sSimpleSelf.supplyS = sSimple.supplyS :=
  C10_simple_self_transfer 1 3 (by decide) (by decide) (by decide)

/-- C6: freeze gating. On a state whose slot holds a token state:
with the global flag set, transfer and transfer_from fail with the
GloballyFrozen panic; with the global flag clear and either endpoint
carrying a freeze record, both fail with the AccountFrozen panic; in
either failure the committed state — balances included — is exactly
the pre-call state; and the is_frozen accessor returns true exactly
when the global flag is set or the account has a freeze record. -/
theorem C6_freeze_gating {s : Storage} {st : TokenState} (a b p c : Nat) (x : Int) (q : Nat)
    (hs : s.stateSlot = some (InstVal.st st)) :
    (st.is_frozen = true →
      step (Op.transfer a b x) s = Except.error Err.globallyFrozen
      ∧ step (Op.transferFrom p a b x q) s = Except.error Err.globallyFrozen)
    ∧ (st.is_frozen = false → (s.frozen.contains a || s.frozen.contains b) = true →
      step (Op.transfer a b x) s = Except.error Err.accountFrozen
      ∧ step (Op.transferFrom p a b x q) s = Except.error Err.accountFrozen)
    ∧ ((st.is_frozen = true ∨ (s.frozen.contains a || s.frozen.contains b) = true) →
      exec1 s (Op.transfer a b x) = s ∧ exec1 s (Op.transferFrom p a b x q) = s)
    ∧ is_frozen s c = Except.ok (st.is_frozen || s.frozen.contains c) := by
  have hrs : read_state s = Except.ok st := by
    unfold read_state
    rw [hs]
  have hifz : ∀ y, is_frozen s y = Except.ok (st.is_frozen || s.frozen.contains y) := by
    intro y
    unfold is_frozen
    rw [hrs]
  have htg : st.is_frozen = true →
      transferOp s a b x = Except.error Err.globallyFrozen
      ∧ transferFromOp s p a b x q = Except.error Err.globallyFrozen := by
    intro hf
    constructor
    · simp [transferOp, hrs, hf]
    · simp [transferFromOp, hrs, hf]
  have hta : st.is_frozen = false → (s.frozen.contains a || s.frozen.contains b) = true →
      transferOp s a b x = Except.error Err.accountFrozen
      ∧ transferFromOp s p a b x q = Except.error Err.accountFrozen := by
    intro hf hab
    cases hca : s.frozen.contains a with
    | true =>
      have hmema : a ∈ s.frozen := by simpa using hca
      constructor
      · simp [transferOp, hrs, hf, hifz, hmema]
      · simp [transferFromOp, hrs, hf, hifz, hmema]
    | false =>
      have hcb : s.frozen.contains b = true := by
        rw [hca] at hab
        simpa using hab
      have hmema : a ∉ s.frozen := by simpa using hca
      have hmemb : b ∈ s.frozen := by simpa using hcb
      constructor
      · simp [transferOp, hrs, hf, hifz, hmema, hmemb]
      · simp [transferFromOp, hrs, hf, hifz, hmema, hmemb]
  refine ⟨htg, hta, ?_, hifz c⟩
  intro hdisj
  cases hfz : st.is_frozen with
  | true =>
    obtain ⟨h1, h2⟩ := htg hfz
    constructor
    · unfold exec1
      simp [step, h1]
    · unfold exec1
      simp [step, h2]
  | false =>
    have hab : (s.frozen.contains a || s.frozen.contains b) = true := by
      rcases hdisj with hd | hd
      · rw [hfz] at hd
        exact Bool.noConfusion hd
      · exact hd
    obtain ⟨h1, h2⟩ := hta hfz hab
    constructor
    · unfold exec1
      simp [step, h1]
    · unfold exec1
      simp [step, h2]

/-- Witness for C6 at the concrete state `sFroze` (account 3 frozen,
global flag clear). -/
theorem C6_freeze_gating_witness :
    (false = true →
      step (Op.transfer 3 4 1) sFroze = Except.error Err.globallyFrozen
      ∧ step (Op.transferFrom 9 3 4 1 0) sFroze = Except.error Err.globallyFrozen)
    ∧ (false = false → (sFroze.frozen.contains 3 || sFroze.frozen.contains 4) = true →
      step (Op.transfer 3 4 1) sFroze = Except.error Err.accountFrozen
      ∧ step (Op.transferFrom 9 3 4 1 0) sFroze = Except.error Err.accountFrozen)
    ∧ ((false = true ∨ (sFroze.frozen.contains 3 || sFroze.frozen.contains 4) = true) →
      exec1 sFroze (Op.transfer 3 4 1) = sFroze ∧ exec1 sFroze (Op.transferFrom 9 3 4 1 0) = sFroze)
    ∧ is_frozen sFroze 3 = Except.ok (false || sFroze.frozen.contains 3) :=
  @C6_freeze_gating sFroze ({ admin := 0, total_supply := 0, max_supply := none, is_mintable := true, is_burnable := true, is_freezable := true, is_frozen := false }) 3 4 9 3 1 0 (by decide)

/-- One untouched step preserves the stored allowance record of the
pair (o, sp): every operation other than an approve for that pair or
a transfer_from spending that pair leaves the record unchanged, and
failing operations change nothing. -/
theorem exec1_preserves_allowance (o sp : Nat) (op : Op) (s : Storage)
    (h : UntouchB o sp op = true) :
    stored_allowance (exec1 s op) o sp = stored_allowance s o sp := by
  cases hstep : step op s with
  | error e =>
    have he : exec1 s op = s := by
      unfold exec1
      rw [hstep]
    rw [he]
  | ok t =>
    have he : exec1 s op = t := by
      unfold exec1
      rw [hstep]
    rw [he]
    cases op with
    | init adm dec nm sym ms mi bu fz =>
      obtain ⟨_, hs'⟩ := init_ok_inv hstep
      subst hs'
      rfl
    | mint dst x =>
      obtain ⟨_, st, _, hs'⟩ := mint_ok_inv hstep
      subst hs'
      rfl
    | burn src x =>
      obtain ⟨_, st, _, hs'⟩ := burn_ok_inv hstep
      subst hs'
      rfl
    | freeze addr =>
      have hs' := freeze_ok_inv hstep
      subst hs'
      rfl
    | unfreeze addr =>
      have hs' := unfreeze_ok_inv hstep
      subst hs'
      rfl
    | setFrozen flag =>
      obtain ⟨st, _, hs'⟩ := setFrozen_ok_inv hstep
      subst hs'
      rfl
    | setAdmin na =>
      obtain ⟨st, _, hs'⟩ := setAdmin_ok_inv hstep
      subst hs'
      rfl
    | approve f pp y e' =>
      have hs' := approve_ok_inv hstep
      subst hs'
      unfold stored_allowance
      show lookupD (updateD s.allowances (f, pp) _) (o, sp) _ = lookupD s.allowances (o, sp) _
      apply lookupD_updateD_ne
      simp only [UntouchB, Bool.not_eq_true', Bool.and_eq_false_iff, beq_eq_false_iff_ne] at h
      intro heq
      rw [Prod.mk.injEq] at heq
      rcases h with h | h
      · exact h heq.1.symm
      · exact h heq.2.symm
    | transfer src dst x =>
      obtain ⟨_, _, hs'⟩ := transfer_ok_inv hstep
      subst hs'
      rfl
    | transferFrom pp src dst x seq =>
      obtain ⟨_, _, hs'⟩ := transferFrom_ok_inv hstep
      subst hs'
      unfold stored_allowance
      show lookupD (updateD s.allowances (src, pp) _) (o, sp) _ = lookupD s.allowances (o, sp) _
      apply lookupD_updateD_ne
      simp only [UntouchB, Bool.not_eq_true', Bool.and_eq_false_iff, beq_eq_false_iff_ne] at h
      intro heq
      rw [Prod.mk.injEq] at heq
      rcases h with h | h
      · exact h heq.1.symm
      · exact h heq.2.symm

/-- A sequence of untouched operations preserves the stored allowance
record of the pair (o, sp). -/
theorem execList_preserves_allowance (o sp : Nat) (ops : List Op)
    (h : ops.all (UntouchB o sp) = true) :
    ∀ s : Storage, stored_allowance (execList s ops) o sp = stored_allowance s o sp := by
  induction ops with
  | nil => intro s; rfl
  | cons op rest ih =>
    intro s
    rw [List.all_cons, Bool.and_eq_true] at h
    show stored_allowance (execList (exec1 s op) rest) o sp = _
    rw [ih h.2 (exec1 s op), exec1_preserves_allowance o sp op s h.1]

/-- C8: allowance round-trip with lazy expiry. After a successful
approve(o, sp, A, E), and any sequence of operations none of which is
an approve for (o, sp) or a transfer_from spending (o, sp), the
allowance accessor returns A while the ledger sequence is at most E
and 0 once the sequence exceeds E. -/
theorem C8_allowance_round_trip (s s1 : Storage) (o sp : Nat) (A : Int) (E : Nat)
    (ops : List Op) (seqv : Nat)
    (h1 : step (Op.approve o sp A E) s = Except.ok s1)
    (h2 : ops.all (UntouchB o sp) = true) :
    allowance (execList s1 ops) o sp seqv = if seqv ≤ E then A else 0 := by
  have hs1 := approve_ok_inv h1
  have hst : stored_allowance s1 o sp = { amount := A, expiration_ledger := E } := by
    subst hs1
    unfold stored_allowance
    show lookupD (updateD s.allowances (o, sp) _) (o, sp) _ = _
    rw [lookupD_updateD_self]
  have hpres := execList_preserves_allowance o sp ops h2 s1
  unfold allowance read_allowance
  rw [hpres, hst]
  dsimp only
  by_cases hse : seqv ≤ E
  · rw [if_neg (by omega : ¬ E < seqv), if_pos hse]
  · rw [if_pos (by omega : E < seqv), if_neg hse]

/-- Witness for C8: approve(1, 2, 50, 10) on fresh storage followed
by an unrelated approve, read at sequence 5 (live) and 11 (expired). -/
theorem C8_allowance_round_trip_witness :
    ([Op.approve 3 4 7 8].all (UntouchB 1 2) = true)
    ∧ allowance (execList sApprove [Op.approve 3 4 7 8]) 1 2 5 = (if (5 : Nat) ≤ 10 then (50 : Int) else 0)
    ∧ allowance (execList sApprove [Op.approve 3 4 7 8]) 1 2 11 = (if (11 : Nat) ≤ 10 then (50 : Int) else 0) :=
  ⟨by decide,
   C8_allowance_round_trip emptyStorage sApprove 1 2 50 10 [Op.approve 3 4 7 8] 5 (by decide) (by decide),
   C8_allowance_round_trip emptyStorage sApprove 1 2 50 10 [Op.approve 3 4 7 8] 11 (by decide) (by decide)⟩

end TokenLab

